import Mathlib

/-!
Verification development for the retail-radar local product search service.

JavaScript strings are modelled as `List Char`, JavaScript numbers as `ℝ`
(with explicit one-decimal rounding where the source calls `toFixed(1)`),
inventory quantities as `ℤ`, and absent / unparsable (`NaN`) request fields
as `none : Option ℝ`.  The geographic utilities (`calculateDistance`,
`getBoundingBox`, `findNearbyStores`, `estimateDeliveryTime`) are translated
from the geo utility module; the search pipeline is translated from the
`POST /api/search` route; the order inventory mutation from the
`POST /api/orders` route.  JavaScript stable `Array.prototype.sort` with a
key comparator is modelled by `List.insertionSort`, which is a stable sort.
The generated deep-link URL fields (`buyUrl`, `storeUrl`, `retailerKey`) of
a search result are not modelled: they are produced by the external linking
collaborator and no property below mentions them.
-/

namespace RetailRadar

/-! ### JavaScript string primitives over `List Char` -/

/-- Lower-casing a JavaScript string, character by character. -/
def toLowerList (s : List Char) : List Char := s.map Char.toLower

/-- JavaScript `hay.includes(t)`: substring containment. -/
def jsIncludes (hay t : List Char) : Bool := decide (t <:+: hay)

/-- Worker for `splitWs`; `acc` holds the current word reversed. -/
def splitWsGo : List Char → List Char → List (List Char)
  | acc, [] => if acc = [] then [] else [acc.reverse]
  | acc, c :: rest =>
    if c.isWhitespace then
      (if acc = [] then splitWsGo [] rest else acc.reverse :: splitWsGo [] rest)
    else splitWsGo (c :: acc) rest

/-- JavaScript `s.split(/\s+/).filter(Boolean)`: split on whitespace runs,
dropping empty fragments. -/
def splitWs (s : List Char) : List (List Char) := splitWsGo [] s

/-- JavaScript `Array.prototype.join(sep)` on a list of strings. -/
def jsJoin (sep : List Char) : List (List Char) → List Char
  | [] => []
  | [k] => k
  | k :: k2 :: rest => k ++ sep ++ jsJoin sep (k2 :: rest)

/-- Total lexicographic comparison on `List Char` (model of `localeCompare`
based name ordering). -/
def listCharLe : List Char → List Char → Bool
  | [], _ => true
  | _ :: _, [] => false
  | a :: as, b :: bs => if a = b then listCharLe as bs else decide (a < b)

/-! ### Geo utility -/

/-- Degrees to radians. -/
noncomputable def toRadians (deg : ℝ) : ℝ := deg * (Real.pi / 180)

/-- JavaScript `Math.atan2` on real (non-NaN) inputs. -/
noncomputable def atan2 (y x : ℝ) : ℝ :=
  if 0 < x then Real.arctan (y / x)
  else if x < 0 then
    (if 0 ≤ y then Real.arctan (y / x) + Real.pi else Real.arctan (y / x) - Real.pi)
  else
    (if 0 < y then Real.pi / 2 else if y < 0 then -(Real.pi / 2) else 0)

/-- JavaScript `parseFloat(x.toFixed(1))` for the non-negative values the
geo code produces: rounding to one decimal place, halves rounding up. -/
noncomputable def round1 (x : ℝ) : ℝ := (⌊x * 10 + 1 / 2⌋ : ℤ) / 10

/-- The unrounded Haversine great-circle distance (miles, Earth radius
3959) computed by `calculateDistance` before its final `toFixed(1)`. -/
noncomputable def haversineRaw (lat1 lng1 lat2 lng2 : ℝ) : ℝ :=
  let dLat := toRadians (lat2 - lat1)
  let dLng := toRadians (lng2 - lng1)
  let a := Real.sin (dLat / 2) ^ 2 +
    Real.cos (toRadians lat1) * Real.cos (toRadians lat2) * Real.sin (dLng / 2) ^ 2
  let c := 2 * atan2 (Real.sqrt a) (Real.sqrt (1 - a))
  3959 * c

/-- Function `calculateDistance`: Haversine distance in miles rounded to one
decimal place. -/
noncomputable def calculateDistance (lat1 lng1 lat2 lng2 : ℝ) : ℝ :=
  round1 (haversineRaw lat1 lng1 lat2 lng2)

structure BoundingBox where
  minLat : ℝ
  maxLat : ℝ
  minLng : ℝ
  maxLng : ℝ

/-- Function `getBoundingBox`: cheap rectangular pre-filter around a point. -/
noncomputable def getBoundingBox (lat lng radiusMiles : ℝ) : BoundingBox :=
  let latDelta := radiusMiles / 69
  let lngDelta := radiusMiles / (69 * Real.cos (toRadians lat))
  ⟨lat - latDelta, lat + latDelta, lng - lngDelta, lng + lngDelta⟩

structure Store where
  storeId : List Char
  name : List Char
  brand : List Char
  address : List Char
  lat : ℝ
  lng : ℝ

/-- A store annotated with its computed distance (the `{ ...s, distance }`
spread in `findNearbyStores`). -/
structure NearbyStore where
  toStore : Store
  distance : ℝ

/-- The rectangle test of `findNearbyStores`. -/
def inBox (b : BoundingBox) (s : Store) : Prop :=
  b.minLat ≤ s.lat ∧ s.lat ≤ b.maxLat ∧ b.minLng ≤ s.lng ∧ s.lng ≤ b.maxLng

noncomputable instance (b : BoundingBox) (s : Store) : Decidable (inBox b s) := by
  unfold inBox; infer_instance

noncomputable instance : DecidableRel fun (a b : NearbyStore) => a.distance ≤ b.distance :=
  fun a b => inferInstanceAs (Decidable (a.distance ≤ b.distance))

/-- Function `findNearbyStores`: bounding-box pre-filter, exact (rounded) distance
annotation, distance cutoff, then ascending stable sort by distance. -/
noncomputable def findNearbyStores (stores : List Store) (lat lng radiusMiles : ℝ) :
    List NearbyStore :=
  let box := getBoundingBox lat lng radiusMiles
  (((stores.filter fun s => decide (inBox box s)).map fun s =>
      NearbyStore.mk s (calculateDistance lat lng s.lat s.lng)).filter fun ns =>
      decide (ns.distance ≤ radiusMiles)).insertionSort
    fun a b => a.distance ≤ b.distance

structure DeliveryEstimate where
  pickup : List Char
  delivery : List Char
deriving DecidableEq

/-- Function `estimateDeliveryTime`: banded pickup/delivery time estimate. -/
noncomputable def estimateDeliveryTime (distanceMiles : ℝ) : DeliveryEstimate :=
  if distanceMiles ≤ 2 then ⟨"10-15 min".toList, "15-25 min".toList⟩
  else if distanceMiles ≤ 5 then ⟨"15-25 min".toList, "25-35 min".toList⟩
  else if distanceMiles ≤ 10 then ⟨"20-30 min".toList, "35-50 min".toList⟩
  else if distanceMiles ≤ 20 then ⟨"30-45 min".toList, "50-75 min".toList⟩
  else ⟨"45-60 min".toList, "75-90 min".toList⟩

/-! ### Data model for search -/

structure Product where
  sku : List Char
  name : List Char
  category : List Char
  image : Option (List Char)
  brand : Option (List Char)
  price : ℝ
  keywords : List (List Char)
  retailers : List (List Char)

structure InventoryRecord where
  id : List Char
  storeId : List Char
  productSku : List Char
  productName : List Char
  price : ℝ
  quantity : ℤ
  inStock : Bool

/-- A catalog product annotated with its text-relevance score
(the `{ ...product, relevanceScore }` spread in the search route). -/
structure ScoredProduct where
  product : Product
  relevanceScore : ℕ

/-- The module-level mutable collections the search route reads. -/
structure SearchState where
  PRODUCTS : List Product
  stores : List Store
  inventory : List InventoryRecord

/-! ### The `POST /api/search` pipeline -/

structure SearchRequest where
  q : List Char
  lat : Option ℝ
  lng : Option ℝ
  radius : Option ℝ
  category : Option (List Char)
  minPrice : Option ℝ
  maxPrice : Option ℝ
  sortBy : List Char
  sortOrder : List Char
  page : ℕ
  limit : ℕ
  retailer : Option (List Char)
  inStockOnly : Bool

/-- JavaScript `parseFloat(x) || d`: an absent or unparsable (`NaN`) value
is `none`; note that the value `0` is falsy and also falls back to `d`. -/
noncomputable def jsOrNum (x : Option ℝ) (d : ℝ) : ℝ :=
  match x with
  | none => d
  | some v => if v = 0 then d else v

/-- The line `const userLat = parseFloat(lat) || config.defaultLocation.lat`. -/
noncomputable def userLat (req : SearchRequest) : ℝ := jsOrNum req.lat 40.6892

/-- The line `const userLng = parseFloat(lng) || config.defaultLocation.lng`. -/
noncomputable def userLng (req : SearchRequest) : ℝ := jsOrNum req.lng (-73.9857)

/-- The value `Math.min(parseFloat(radius), config.maxRadius)` with the destructuring
default `radius = config.defaultRadius` (10). -/
noncomputable def maxRadius (req : SearchRequest) : ℝ := min (req.radius.getD 10) 50

/-- The terms `q.toLowerCase().split(/\s+/).filter(Boolean)`. -/
def searchTerms (req : SearchRequest) : List (List Char) := splitWs (toLowerList req.q)

/-- The per-term increment of the relevance loop: +3 for a product-name
substring hit, +2 for a keyword-string hit, +1 for a category hit. -/
def termScore (nameLower keywordStr : List Char) (p : Product) (t : List Char) : ℕ :=
  (if jsIncludes nameLower t then 3 else 0) + (if jsIncludes keywordStr t then 2 else 0) +
    (if jsIncludes p.category t then 1 else 0)

/-- The relevance score accumulated over all search terms. -/
def scoreProduct (terms : List (List Char)) (p : Product) : ℕ :=
  (terms.map (termScore (toLowerList p.name) (toLowerList (jsJoin [' '] p.keywords)) p)).sum

/-- Step 1 of the search route: score the catalog and drop zero-score
products, or give every product score 1 on an empty query. -/
def textMatch (terms : List (List Char)) (products : List Product) : List ScoredProduct :=
  if terms = [] then products.map fun p => ⟨p, 1⟩
  else (products.map fun p => ⟨p, scoreProduct terms p⟩).filter fun sp =>
    decide (0 < sp.relevanceScore)

/-- Step 2: exact category filter against the lower-cased request value. -/
def categoryFilter (category : Option (List Char)) (l : List ScoredProduct) :
    List ScoredProduct :=
  match category with
  | none => l
  | some c => l.filter fun sp => decide (sp.product.category = toLowerList c)

/-- Step 3: retailer membership filter. -/
def retailerFilter (retailer : Option (List Char)) (l : List ScoredProduct) :
    List ScoredProduct :=
  match retailer with
  | none => l
  | some r => l.filter fun sp => decide (toLowerList r ∈ sp.product.retailers)

/-- The products surviving text, category and retailer narrowing. -/
def matchingProducts (st : SearchState) (req : SearchRequest) : List ScoredProduct :=
  retailerFilter req.retailer
    (categoryFilter req.category (textMatch (searchTerms req) st.PRODUCTS))

/-- Step 4 first part: the stores within the (clamped) radius of the
(defaulted) location. -/
noncomputable def nearbyStores (st : SearchState) (req : SearchRequest) : List NearbyStore :=
  findNearbyStores st.stores (userLat req) (userLng req) (maxRadius req)

/-- The id set of the nearby stores. -/
noncomputable def nearbyStoreIds (st : SearchState) (req : SearchRequest) : List (List Char) :=
  (nearbyStores st req).map fun ns => ns.toStore.storeId

/-- The `storeMap` object lookup; JavaScript object assignment means a
duplicated id keeps the last entry, hence the `reverse`. -/
noncomputable def lookupStore (nss : List NearbyStore) (id : List Char) : Option NearbyStore :=
  nss.reverse.find? fun ns => decide (ns.toStore.storeId = id)

/-- The inventory records for one product at nearby stores, optionally
restricted to in-stock records. -/
noncomputable def productInventory (st : SearchState) (req : SearchRequest) (p : Product) :
    List InventoryRecord :=
  st.inventory.filter fun inv =>
    decide (inv.productSku = p.sku ∧ inv.storeId ∈ nearbyStoreIds st req ∧
      (req.inStockOnly = false ∨ inv.inStock = true))

/-- The per-record price-bounds test of the search route. -/
noncomputable def priceOk (req : SearchRequest) (inv : InventoryRecord) : Bool :=
  (match req.minPrice with
   | some lo => decide (¬inv.price < lo)
   | none => true) &&
  (match req.maxPrice with
   | some hi => decide (¬hi < inv.price)
   | none => true)

/-- The sort key `storeMap[inv.storeId]?.distance || 999` used to pick the
nearest carrying record: a missing or zero distance becomes 999. -/
noncomputable def invDistKey (nss : List NearbyStore) (inv : InventoryRecord) : ℝ :=
  jsOrNum ((lookupStore nss inv.storeId).map fun ns => ns.distance) 999

/-- Product summary embedded in a search result. -/
structure ProductSummary where
  sku : List Char
  name : List Char
  category : List Char
  image : Option (List Char)
  brand : Option (List Char)
  basePrice : ℝ

/-- The `nearestStore` object of a search result (deep-link URL fields are
the linking collaborator and are not modelled). -/
structure NearestStoreDetail where
  id : List Char
  name : List Char
  brand : List Char
  address : List Char
  distance : ℝ
  deliveryEstimate : DeliveryEstimate
  price : ℝ
  quantity : ℤ

/-- One `allStores` entry of a search result. -/
structure StoreOffer where
  storeId : List Char
  name : Option (List Char)
  brand : Option (List Char)
  distance : Option ℝ
  price : ℝ
  quantity : ℤ

structure SearchResult where
  product : ProductSummary
  bestPrice : ℝ
  storeCount : ℕ
  nearestStore : Option NearestStoreDetail
  allStores : List StoreOffer
  relevanceScore : ℕ

noncomputable instance : DecidableRel fun (a b : InventoryRecord) => a.price ≤ b.price :=
  fun a b => inferInstanceAs (Decidable (a.price ≤ b.price))

/-- Steps 4-6 for a single product: collect nearby inventory, apply the
price bounds, pick best price (first minimum of a stable sort) and nearest
record, and shape the result; `none` models the two `continue`s. -/
noncomputable def aggregateProduct (st : SearchState) (req : SearchRequest)
    (sp : ScoredProduct) : Option SearchResult :=
  let pInv := productInventory st req sp.product
  if pInv.isEmpty then none
  else
    let fInv := pInv.filter (priceOk req)
    if fInv.isEmpty then none
    else
      let nss := nearbyStores st req
      match fInv.insertionSort fun a b => a.price ≤ b.price,
        fInv.insertionSort fun a b => invDistKey nss a ≤ invDistKey nss b with
      | cheapest :: _, nearestInv :: _ =>
        some
          ⟨⟨sp.product.sku, sp.product.name, sp.product.category, sp.product.image,
              sp.product.brand, sp.product.price⟩,
            cheapest.price,
            fInv.length,
            (lookupStore nss nearestInv.storeId).map fun ns =>
              ⟨ns.toStore.storeId, ns.toStore.name, ns.toStore.brand, ns.toStore.address,
                ns.distance, estimateDeliveryTime ns.distance, nearestInv.price,
                nearestInv.quantity⟩,
            (fInv.take 5).map fun inv =>
              ⟨inv.storeId, (lookupStore nss inv.storeId).map fun ns => ns.toStore.name,
                (lookupStore nss inv.storeId).map fun ns => ns.toStore.brand,
                (lookupStore nss inv.storeId).map fun ns => ns.distance, inv.price,
                inv.quantity⟩,
            sp.relevanceScore⟩
      | _, _ => none

/-- The unsorted result list produced by the per-product loop. -/
noncomputable def fullResults (st : SearchState) (req : SearchRequest) : List SearchResult :=
  (matchingProducts st req).filterMap (aggregateProduct st req)

/-- The sort key `a.nearestStore?.distance || 999` of the distance sort:
a missing or zero distance becomes 999. -/
noncomputable def resultDistKey (r : SearchResult) : ℝ :=
  jsOrNum (r.nearestStore.map fun ns => ns.distance) 999

noncomputable instance : DecidableRel fun (a b : SearchResult) => a.bestPrice ≤ b.bestPrice :=
  fun a b => inferInstanceAs (Decidable (a.bestPrice ≤ b.bestPrice))

noncomputable instance :
    DecidableRel fun (a b : SearchResult) => resultDistKey a ≤ resultDistKey b :=
  fun a b => inferInstanceAs (Decidable (resultDistKey a ≤ resultDistKey b))

/-- Step 6 of the search route: the `switch (sortBy)` over stable sorts;
any unknown `sortBy` falls through to relevance, which sorts descending on
score regardless of `sortOrder`. -/
noncomputable def sortResults (sortBy sortOrder : List Char) (rs : List SearchResult) :
    List SearchResult :=
  if sortBy = "price".toList then
    (if sortOrder = "desc".toList then rs.insertionSort fun a b => b.bestPrice ≤ a.bestPrice
     else rs.insertionSort fun a b => a.bestPrice ≤ b.bestPrice)
  else if sortBy = "distance".toList then
    (if sortOrder = "desc".toList then
      rs.insertionSort fun a b => resultDistKey b ≤ resultDistKey a
     else rs.insertionSort fun a b => resultDistKey a ≤ resultDistKey b)
  else if sortBy = "name".toList then
    (if sortOrder = "desc".toList then
      rs.insertionSort fun a b => listCharLe b.product.name a.product.name = true
     else rs.insertionSort fun a b => listCharLe a.product.name b.product.name = true)
  else rs.insertionSort fun a b => b.relevanceScore ≤ a.relevanceScore

/-- The sorted, unpaginated result list. -/
noncomputable def sortedResults (st : SearchState) (req : SearchRequest) : List SearchResult :=
  sortResults req.sortBy req.sortOrder (fullResults st req)

/-- The value `Math.ceil(totalResults / limit)` for natural inputs (the route is
always called with a positive integer limit). -/
def totalPagesOf (totalResults limit : ℕ) : ℕ := (totalResults + limit - 1) / limit

structure LocationEcho where
  lat : ℝ
  lng : ℝ
  radius : ℝ

structure FiltersEcho where
  category : Option (List Char)
  minPrice : Option ℝ
  maxPrice : Option ℝ
  retailer : Option (List Char)
  inStockOnly : Bool

structure SortingEcho where
  sortBy : List Char
  sortOrder : List Char

structure Pagination where
  page : ℕ
  limit : ℕ
  totalResults : ℕ
  totalPages : ℕ

structure SearchResponse where
  query : List Char
  location : LocationEcho
  filters : FiltersEcho
  sorting : SortingEcho
  pagination : Pagination
  results : List SearchResult

/-- Step 7 and the final `res.json`: paginate the sorted results and shape
the response body. -/
noncomputable def searchResponse (st : SearchState) (req : SearchRequest) : SearchResponse :=
  let sorted := sortedResults st req
  let totalResults := sorted.length
  ⟨req.q, ⟨userLat req, userLng req, maxRadius req⟩,
    ⟨req.category, req.minPrice, req.maxPrice, req.retailer, req.inStockOnly⟩,
    ⟨req.sortBy, req.sortOrder⟩,
    ⟨req.page, req.limit, totalResults, totalPagesOf totalResults req.limit⟩,
    (sorted.drop ((req.page - 1) * req.limit)).take req.limit⟩

/-- The whole `POST /api/search` handler as a state transformer: it reads
the catalog, store and inventory collections and writes none of them. -/
noncomputable def searchHandler (st : SearchState) (req : SearchRequest) :
    SearchState × SearchResponse :=
  (st, searchResponse st req)

/-! ### Order placement: the inventory mutation of `POST /api/orders` -/

structure OrderItem where
  inventoryId : List Char
  quantity : ℤ

/-- The in-place mutation `invItem.quantity -= q; if (quantity <= 0)
invItem.inStock = false` applied to one record. -/
def applyDecrement (r : InventoryRecord) (q : ℤ) : InventoryRecord :=
  ⟨r.id, r.storeId, r.productSku, r.productName, r.price, r.quantity - q,
   if r.quantity - q ≤ 0 then false else r.inStock⟩

/-- Mutate the first inventory record with the given id (JavaScript
`inventory.find` returns the first match, mutated in place). -/
def decrementFirst : List InventoryRecord → List Char → ℤ → List InventoryRecord
  | [], _, _ => []
  | r :: rs, iid, q =>
    if r.id = iid then applyDecrement r q :: rs else r :: decrementFirst rs iid q

/-- The item loop of `POST /api/orders`: look up each requested item,
reject (HTTP 400, `Bool` result `false`) on a missing record or
insufficient stock — keeping the decrements already applied — otherwise
decrement and continue. -/
def processOrderItems : List InventoryRecord → List OrderItem → List InventoryRecord × Bool
  | inv, [] => (inv, true)
  | inv, it :: rest =>
    match inv.find? fun r => decide (r.id = it.inventoryId) with
    | none => (inv, false)
    | some r =>
      if r.inStock = false ∨ r.quantity < it.quantity then (inv, false)
      else processOrderItems (decrementFirst inv it.inventoryId it.quantity) rest



/-! ### Shared concrete data used by witnesses and counterexamples -/

/-- The empty collections state. -/
def stEmpty : SearchState := ⟨[], [], []⟩

/-- The catalog entry `RR-PT-001` (DeWalt cordless drill). -/
def P1 : Product :=
  ⟨"RR-PT-001".toList, "DeWalt 20V MAX Cordless Drill/Driver Kit".toList, "hardware".toList,
   none, some "DeWalt".toList, 99,
   ["drill".toList, "cordless".toList, "dewalt".toList, "power tool".toList, "20v".toList],
   ["homedepot".toList, "lowes".toList, "acehardware".toList, "walmart".toList,
    "menards".toList]⟩

/-- A store placed exactly at the configured default location
(40.6892, -73.9857). -/
def S1 : Store :=
  ⟨"hd-bk-001".toList, "Home Depot Brooklyn".toList, "Home Depot".toList,
   "585 Dekalb Ave".toList, 40.6892, -73.9857⟩

/-- An in-stock inventory record for `P1` at `S1`. -/
def I1 : InventoryRecord :=
  ⟨"inv-1".toList, "hd-bk-001".toList, "RR-PT-001".toList,
   "DeWalt 20V MAX Cordless Drill/Driver Kit".toList, 9.99, 10, true⟩

/-- A second in-stock record for the same product at the same store. -/
def I2 : InventoryRecord :=
  ⟨"inv-2".toList, "hd-bk-001".toList, "RR-PT-001".toList,
   "DeWalt 20V MAX Cordless Drill/Driver Kit".toList, 12.49, 3, true⟩

/-- One drill product, one store at the default location, one record. -/
def StDemo : SearchState := ⟨[P1], [S1], [I1]⟩

/-- As `StDemo` but with two inventory records at the same store. -/
def StDemo2 : SearchState := ⟨[P1], [S1], [I1, I2]⟩

/-- As `StDemo` but with no stores at all. -/
def StDemoNoStores : SearchState := ⟨[P1], [], [I1]⟩

/-- The request of the mid-ocean scenario: query drill, lat 0, lng 0,
radius 10, defaults everywhere else. -/
def ReqC3 : SearchRequest :=
  ⟨"drill".toList, some 0, some 0, some 10, none, none, none, "relevance".toList,
   "asc".toList, 1, 20, none, true⟩

/-- A request at the default coordinates with price bounds 1 and 100. -/
def ReqC6 : SearchRequest :=
  ⟨"drill".toList, some 40.6892, some (-73.9857), some 10, none, some 1, some 100,
   "relevance".toList, "asc".toList, 1, 20, none, true⟩

instance : IsTotal SearchResult fun a b => resultDistKey a ≤ resultDistKey b :=
  ⟨fun a b => le_total (resultDistKey a) (resultDistKey b)⟩

instance : IsTrans SearchResult fun a b => resultDistKey a ≤ resultDistKey b :=
  ⟨fun _ _ _ h1 h2 => le_trans h1 h2⟩

/-- A nearest-store detail at the given distance, used in sort tests. -/
def nsdDemo (d : ℝ) : NearestStoreDetail :=
  ⟨"s".toList, "S".toList, "B".toList, "A".toList, d,
   ⟨"10-15 min".toList, "15-25 min".toList⟩, 1, 1⟩

def psDemo : ProductSummary := ⟨"sku".toList, "N".toList, "c".toList, none, none, 1⟩

/-- A result whose nearest store is at distance 0. -/
def resD0 : SearchResult := ⟨psDemo, 1, 1, some (nsdDemo 0), [], 1⟩

/-- A result whose nearest store is at distance 5. -/
def resD5 : SearchResult := ⟨psDemo, 1, 1, some (nsdDemo 5), [], 1⟩

/-- The candidate of the C1 counterexample: on the equator, 0.1 degrees of
longitude east of the query point. -/
noncomputable def sC1 : Store := ⟨"c1".toList, "C".toList, "B".toList, "A".toList, 0, 1 / 10⟩

instance : IsTotal InventoryRecord fun a b => a.price ≤ b.price :=
  ⟨fun a b => le_total a.price b.price⟩

instance : IsTrans InventoryRecord fun a b => a.price ≤ b.price :=
  ⟨fun _ _ _ h1 h2 => le_trans h1 h2⟩

/-- The single search result produced on the demo states. -/
noncomputable def rDemo : SearchResult :=
  ⟨⟨P1.sku, P1.name, P1.category, P1.image, P1.brand, P1.price⟩, I1.price, 1,
    some ⟨S1.storeId, S1.name, S1.brand, S1.address, 0, estimateDeliveryTime 0, I1.price,
      I1.quantity⟩,
    [⟨I1.storeId, some S1.name, some S1.brand, some 0, I1.price, I1.quantity⟩], 5⟩

/-- The single search result produced on the two-record demo state. -/
noncomputable def rDemo2 : SearchResult :=
  ⟨⟨P1.sku, P1.name, P1.category, P1.image, P1.brand, P1.price⟩, I1.price, 2,
    some ⟨S1.storeId, S1.name, S1.brand, S1.address, 0, estimateDeliveryTime 0, I1.price,
      I1.quantity⟩,
    [⟨I1.storeId, some S1.name, some S1.brand, some 0, I1.price, I1.quantity⟩,
     ⟨I2.storeId, some S1.name, some S1.brand, some 0, I2.price, I2.quantity⟩], 5⟩

/-- The inventory-record invariant of the data model. -/
abbrev InvInvariant (inv : List InventoryRecord) : Prop :=
  ∀ r ∈ inv, 0 ≤ r.quantity ∧ (r.quantity = 0 → r.inStock = false)

example : splitWs "  cordless   drill ".toList = ["cordless".toList, "drill".toList] := by
  decide

example : jsJoin [' '] ["drill".toList, "cordless".toList] = "drill cordless".toList := by
  decide

example : jsIncludes "dewalt cordless drill".toList "drill".toList = true := by decide


/-! ### C8: order placement preserves the inventory invariant -/


lemma decrementFirst_invariant (inv : List InventoryRecord) (iid : List Char) (q : ℤ)
    (hinv : InvInvariant inv)
    (hfound : ∀ r, inv.find? (fun s => decide (s.id = iid)) = some r → q ≤ r.quantity) :
    InvInvariant (decrementFirst inv iid q) := by
  induction inv with
  | nil => intro s hs; simp [decrementFirst] at hs
  | cons r rs ih =>
    intro s hs
    by_cases hid : r.id = iid
    · rw [decrementFirst, if_pos hid] at hs
      rcases List.mem_cons.mp hs with h | h
      · subst h
        have hq : q ≤ r.quantity := by
          apply hfound
          exact List.find?_cons_of_pos _ (by simp [hid])
        constructor
        · simp only [applyDecrement]
          omega
        · intro h0
          simp only [applyDecrement] at h0 ⊢
          rw [if_pos (by omega)]
      · exact hinv s (List.mem_cons_of_mem _ h)
    · rw [decrementFirst, if_neg hid] at hs
      rcases List.mem_cons.mp hs with h | h
      · subst h
        exact hinv s (List.mem_cons_self _ _)
      · refine ih (fun t ht => hinv t (List.mem_cons_of_mem _ ht)) ?_ s h
        intro t ht
        apply hfound
        rw [List.find?_cons_of_neg _ (by simp [hid])]
        exact ht

/-- C8: order placement preserves the inventory-record invariant: for
every inventory record quantity stays non-negative and a record whose
quantity reaches 0 reports out of stock; both the successful and the
rejected paths of the order item loop keep the invariant. -/
theorem order_placement_preserves_invariant :
    ∀ (items : List OrderItem) (inv : List InventoryRecord),
      InvInvariant inv → InvInvariant (processOrderItems inv items).1
  | [], inv, h => by simpa [processOrderItems] using h
  | it :: rest, inv, h => by
    simp only [processOrderItems]
    cases hf : inv.find? fun r => decide (r.id = it.inventoryId) with
    | none => simpa using h
    | some r =>
      change InvInvariant (if r.inStock = false ∨ r.quantity < it.quantity then (inv, false)
        else processOrderItems (decrementFirst inv it.inventoryId it.quantity) rest).1
      by_cases hc : r.inStock = false ∨ r.quantity < it.quantity
      · simpa [if_pos hc] using h
      · rw [if_neg hc]
        apply order_placement_preserves_invariant rest
        apply decrementFirst_invariant inv it.inventoryId it.quantity h
        intro s hs
        rw [hf] at hs
        injection hs with hs
        subst hs
        push_neg at hc
        exact hc.2

/-- Witness for C8 at a concrete one-record inventory and a two-unit
order item. -/
theorem order_placement_preserves_invariant_witness :
    InvInvariant (processOrderItems
      [⟨"i1".toList, "s1".toList, "p1".toList, "Drill".toList, 1, 5, true⟩]
      [⟨"i1".toList, 2⟩]).1 :=
  order_placement_preserves_invariant [⟨"i1".toList, 2⟩]
    [⟨"i1".toList, "s1".toList, "p1".toList, "Drill".toList, 1, 5, true⟩]
    (by intro r hr; rw [List.mem_singleton] at hr; subst hr; exact ⟨by norm_num, by norm_num⟩)

/-! ### C9: the search path is a pure read -/

/-- C9: the search operation is side-effect-free: the handler returns the
catalog, store set and inventory unchanged (the translated route contains
no write to any of the three collections). -/
theorem search_is_pure (st : SearchState) (req : SearchRequest) :
    (searchHandler st req).1 = st ∧
      (searchHandler st req).1.PRODUCTS = st.PRODUCTS ∧
      (searchHandler st req).1.stores = st.stores ∧
      (searchHandler st req).1.inventory = st.inventory :=
  ⟨rfl, rfl, rfl, rfl⟩

/-! ### C10: zero or unparsable coordinates fall back to the default -/

/-- C10: a latitude or longitude equal to 0, or absent or unparsable
(`NaN`, modelled as `none`), is replaced by the configured default
coordinate before geo-filtering, so a caller cannot search at the equator
or prime meridian: both the echoed location and the nearby-store
computation use 40.6892 and -73.9857. -/
theorem zero_coordinate_treated_as_missing :
    (∀ d : ℝ, jsOrNum (some 0) d = d ∧ jsOrNum none d = d) ∧
      (∀ (st : SearchState) (req : SearchRequest),
        (req.lat = none ∨ req.lat = some 0) → (req.lng = none ∨ req.lng = some 0) →
        (searchResponse st req).location.lat = 40.6892 ∧
          (searchResponse st req).location.lng = -73.9857 ∧
          nearbyStores st req = findNearbyStores st.stores 40.6892 (-73.9857) (maxRadius req)) := by
  constructor
  · intro d
    exact ⟨by simp [jsOrNum], rfl⟩
  · intro st req h1 h2
    have hl : userLat req = 40.6892 := by
      rcases h1 with h | h <;> simp [userLat, jsOrNum, h]
    have hg : userLng req = -73.9857 := by
      rcases h2 with h | h <;> simp [userLng, jsOrNum, h]
    refine ⟨?_, ?_, ?_⟩
    · simp [searchResponse, hl]
    · simp [searchResponse, hg]
    · simp [nearbyStores, hl, hg]

/-- Witness for C10: at latitude and longitude 0 the demo state is
searched at the Brooklyn default location. -/
theorem zero_coordinate_treated_as_missing_witness :
    jsOrNum (some 0) 5 = 5 ∧ (searchResponse stEmpty ReqC3).location.lat = 40.6892 ∧
      (searchResponse stEmpty ReqC3).location.lng = -73.9857 :=
  ⟨(zero_coordinate_treated_as_missing.1 5).1,
   (zero_coordinate_treated_as_missing.2 stEmpty ReqC3 (Or.inr rfl) (Or.inr rfl)).1,
   (zero_coordinate_treated_as_missing.2 stEmpty ReqC3 (Or.inr rfl) (Or.inr rfl)).2.1⟩

/-! ### C2: relevance scoring -/

lemma splitWsGo_terms (s : List Char) :
    ∀ (acc : List Char), (∀ c ∈ acc, c.isWhitespace = false) →
      ∀ t ∈ splitWsGo acc s, t ≠ [] ∧ ∀ c ∈ t, c.isWhitespace = false := by
  induction s with
  | nil =>
    intro acc hacc t ht
    by_cases h : acc = []
    · simp [splitWsGo, h] at ht
    · rw [splitWsGo, if_neg h] at ht
      rw [List.mem_singleton] at ht
      subst ht
      exact ⟨by simpa using h, fun c hc => hacc c (List.mem_reverse.mp hc)⟩
  | cons c rest ih =>
    intro acc hacc t ht
    rw [splitWsGo] at ht
    by_cases hw : c.isWhitespace
    · rw [if_pos hw] at ht
      by_cases h : acc = []
      · rw [if_pos h] at ht
        exact ih [] (by simp) t ht
      · rw [if_neg h] at ht
        rcases List.mem_cons.mp ht with h1 | h1
        · subst h1
          exact ⟨by simpa using h, fun d hd => hacc d (List.mem_reverse.mp hd)⟩
        · exact ih [] (by simp) t h1
    · rw [if_neg hw] at ht
      refine ih (c :: acc) ?_ t ht
      intro d hd
      rcases List.mem_cons.mp hd with h1 | h1
      · subst h1
        simpa using hw
      · exact hacc d h1

lemma splitWs_terms (s : List Char) :
    ∀ t ∈ splitWs s, t ≠ [] ∧ ∀ c ∈ t, c.isWhitespace = false :=
  splitWsGo_terms s [] (by simp)

/-- A word that avoids the separator character and reaches past it must be
a left segment of the part before the separator. -/
lemma seg_through_sep {c : Char} :
    ∀ (t a : List Char) {b : List Char}, c ∉ t → t <+: a ++ c :: b → t <+: a
  | [], a, _, _, _ => ⟨a, rfl⟩
  | y :: t', a, b, hc, h => by
    obtain ⟨u, hu⟩ := h
    cases a with
    | nil =>
      rw [List.nil_append, List.cons_append] at hu
      injection hu with h1 h2
      subst h1
      exact absurd (List.mem_cons_self _ t') hc
    | cons x a' =>
      rw [List.cons_append, List.cons_append] at hu
      injection hu with h1 h2
      have hc' : c ∉ t' := fun hmem => hc (List.mem_cons_of_mem _ hmem)
      obtain ⟨u', hu'⟩ := seg_through_sep t' a' hc' ⟨u, h2⟩
      exact ⟨u', by rw [List.cons_append, hu', h1]⟩

lemma sub_append_sep_fwd {c : Char} :
    ∀ (a : List Char) {t b : List Char}, c ∉ t → t <:+: a ++ c :: b → t <:+: a ∨ t <:+: b
  | [], t, b, hc, h => by
    obtain ⟨s, u, hsu⟩ := h
    cases s with
    | nil =>
      cases t with
      | nil => exact Or.inr ⟨[], b, rfl⟩
      | cons y t' =>
        rw [List.nil_append, List.cons_append, List.nil_append] at hsu
        injection hsu with h1 h2
        subst h1
        exact absurd (List.mem_cons_self _ t') hc
    | cons d s' =>
      rw [List.cons_append, List.nil_append] at hsu
      injection hsu with h1 h2
      exact Or.inr ⟨s', u, h2⟩
  | x :: a', t, b, hc, h => by
    obtain ⟨s, u, hsu⟩ := h
    cases s with
    | nil =>
      rw [List.nil_append] at hsu
      have hseg : t <+: (x :: a') ++ c :: b := ⟨u, by simpa using hsu⟩
      obtain ⟨u', hu'⟩ := seg_through_sep t (x :: a') hc hseg
      exact Or.inl ⟨[], u', by simpa using hu'⟩
    | cons d s' =>
      rw [List.cons_append, List.cons_append] at hsu
      injection hsu with h1 h2
      rcases sub_append_sep_fwd a' hc ⟨s', u, h2⟩ with h3 | h3
      · obtain ⟨s2, u2, h4⟩ := h3
        exact Or.inl ⟨x :: s2, u2, by rw [List.cons_append, List.cons_append, h4]⟩
      · exact Or.inr h3

/-- Substring occurrences in a separator-joined string decompose around a
separator character not occurring in the needle. -/
lemma sub_append_sep {t a b : List Char} {c : Char} (hc : c ∉ t) :
    t <:+: a ++ c :: b ↔ t <:+: a ∨ t <:+: b := by
  constructor
  · exact sub_append_sep_fwd a hc
  · intro h
    rcases h with ⟨s, u, hsu⟩ | ⟨s, u, hsu⟩
    · exact ⟨s, u ++ c :: b, by rw [← hsu]; simp [List.append_assoc]⟩
    · exact ⟨a ++ c :: s, u, by rw [← hsu]; simp [List.append_assoc]⟩

/-- A nonempty space-free word is a substring of a space-joined list of
words iff it is a substring of one of them. -/
lemma sub_jsJoin {t : List Char} (ht : t ≠ []) (hsp : ' ' ∉ t) :
    ∀ kws : List (List Char), (t <:+: jsJoin [' '] kws ↔ ∃ kw ∈ kws, t <:+: kw) := by
  intro kws
  induction kws with
  | nil =>
    simp only [jsJoin, List.not_mem_nil]
    constructor
    · intro h
      obtain ⟨s, u, hsu⟩ := h
      rcases List.append_eq_nil.mp (List.append_eq_nil.mp hsu).1 with ⟨_, h2⟩
      exact absurd h2 ht
    · rintro ⟨kw, h, _⟩
      exact absurd h (by simp)
  | cons k tail ih =>
    cases tail with
    | nil => simp [jsJoin]
    | cons k2 rest =>
      have hshape : jsJoin [' '] (k :: k2 :: rest) = k ++ ' ' :: jsJoin [' '] (k2 :: rest) := by
        rw [jsJoin]
        simp
      rw [hshape, sub_append_sep hsp, ih]
      simp only [List.mem_cons]
      constructor
      · rintro (h | ⟨kw, h1, h2⟩)
        · exact ⟨k, Or.inl rfl, h⟩
        · exact ⟨kw, Or.inr h1, h2⟩
      · rintro ⟨kw, h1 | h1, h2⟩
        · exact Or.inl (h1 ▸ h2)
        · exact Or.inr ⟨kw, h1, h2⟩

/-- Lower-casing distributes over the space join. -/
lemma toLower_jsJoin (kws : List (List Char)) :
    toLowerList (jsJoin [' '] kws) = jsJoin [' '] (kws.map toLowerList) := by
  induction kws with
  | nil => rfl
  | cons k tail ih =>
    cases tail with
    | nil => rfl
    | cons k2 rest =>
      rw [jsJoin, List.map_cons, List.map_cons]
      rw [List.map_cons] at ih
      show toLowerList (k ++ [' '] ++ jsJoin [' '] (k2 :: rest)) = _
      rw [toLowerList, List.map_append, List.map_append, ← toLowerList, ← toLowerList,
        ← toLowerList, ih]
      rfl

/-- The per-term accumulation equals the 3/2/1-weighted hit counts. -/
lemma sum_termScore (nameL kwS : List Char) (p : Product) (terms : List (List Char)) :
    (terms.map (termScore nameL kwS p)).sum =
      3 * terms.countP (jsIncludes nameL) + 2 * terms.countP (jsIncludes kwS) +
        terms.countP (jsIncludes p.category) := by
  induction terms with
  | nil => simp
  | cons t ts ih =>
    rw [List.map_cons, List.sum_cons, ih, List.countP_cons, List.countP_cons, List.countP_cons,
      termScore]
    by_cases h1 : jsIncludes nameL t <;> by_cases h2 : jsIncludes kwS t <;>
      by_cases h3 : jsIncludes p.category t <;> simp [h1, h2, h3] <;> ring

/-- C2: for a non-empty query the relevance score of each catalog product
is 3 times the number of whitespace-split lower-cased query terms that are
substrings of the lower-cased product name, plus 2 times the number of
terms found in the product keyword strings, plus 1 times the number of
terms that are substrings of the category, zero-score products are
excluded, and the query cordless drill scores the DeWalt cordless drill
demo product exactly 10. -/
theorem relevance_scoring_spec :
    (∀ (q : List Char) (p : Product),
      scoreProduct (splitWs (toLowerList q)) p =
        3 * (splitWs (toLowerList q)).countP (jsIncludes (toLowerList p.name)) +
          2 * (splitWs (toLowerList q)).countP
            (fun t => decide (∃ kw ∈ p.keywords, t <:+: toLowerList kw)) +
          (splitWs (toLowerList q)).countP (jsIncludes p.category)) ∧
    (∀ (terms : List (List Char)) (products : List Product) (sp : ScoredProduct),
      terms ≠ [] →
      (sp ∈ textMatch terms products ↔
        sp.product ∈ products ∧ sp.relevanceScore = scoreProduct terms sp.product ∧
          0 < sp.relevanceScore)) ∧
    scoreProduct (splitWs (toLowerList "cordless drill".toList))
      ⟨"RR-PT-001".toList, "DeWalt Cordless Drill".toList, "hardware".toList, none,
        some "DeWalt".toList, 99, ["drill".toList, "cordless".toList], []⟩ = 10 := by
  refine ⟨?_, ?_, ?_⟩
  · intro q p
    rw [scoreProduct, sum_termScore]
    congr 1
    congr 1
    congr 1
    apply List.countP_congr
    intro t ht
    obtain ⟨ht1, ht2⟩ := splitWs_terms (toLowerList q) t ht
    have hsp : ' ' ∉ t := fun hmem => by simpa using ht2 ' ' hmem
    simp only [jsIncludes, decide_eq_true_eq]
    rw [toLower_jsJoin]
    rw [sub_jsJoin ht1 hsp]
    constructor
    · rintro ⟨kw, h1, h2⟩
      obtain ⟨kw0, h3, h4⟩ := List.mem_map.mp h1
      exact ⟨kw0, h3, h4 ▸ h2⟩
    · rintro ⟨kw, h1, h2⟩
      exact ⟨toLowerList kw, List.mem_map_of_mem _ h1, h2⟩
  · intro terms products sp hterms
    rw [textMatch, if_neg hterms]
    rw [List.mem_filter, List.mem_map]
    obtain ⟨p0, s0⟩ := sp
    dsimp only
    constructor
    · rintro ⟨⟨p, hp, hmk⟩, hscore⟩
      injection hmk with h1 h2
      subst h1
      subst h2
      exact ⟨hp, rfl, by simpa using hscore⟩
    · rintro ⟨hp, hs, hpos⟩
      subst hs
      exact ⟨⟨p0, hp, rfl⟩, by simpa using hpos⟩
  · decide

/-- Witness for C2: the single-term query drill puts the demo product in
the match list with score 5. -/
theorem relevance_scoring_spec_witness :
    (⟨⟨"RR-PT-001".toList, "DeWalt Cordless Drill".toList, "hardware".toList, none,
        some "DeWalt".toList, 99, ["drill".toList, "cordless".toList], []⟩, 5⟩ : ScoredProduct) ∈
      textMatch ["drill".toList]
        [⟨"RR-PT-001".toList, "DeWalt Cordless Drill".toList, "hardware".toList, none,
          some "DeWalt".toList, 99, ["drill".toList, "cordless".toList], []⟩] :=
  (relevance_scoring_spec.2.1 ["drill".toList] _ _ (by decide)).mpr
    ⟨List.mem_singleton.mpr rfl, by decide, by decide⟩

/-! ### C4: the distance sort and its falsy 999 key -/





/-- Counterexample for C4: under the ascending distance sort a result at
present distance 0.0 sorts after a result at distance 5, because the falsy
`|| 999` coalescing also replaces the distance 0 by 999. -/
theorem distance_sort_zero_counterexample :
    sortResults "distance".toList "asc".toList [resD0, resD5] = [resD5, resD0] ∧
      resD0.nearestStore = some (nsdDemo 0) ∧ (nsdDemo 0).distance = 0 ∧
      resD5.nearestStore = some (nsdDemo 5) ∧ (nsdDemo 5).distance = 5 ∧ (0 : ℝ) < 5 := by
  refine ⟨?_, rfl, rfl, rfl, rfl, by norm_num⟩
  have hk0 : resultDistKey resD0 = 999 := by
    simp [resultDistKey, resD0, nsdDemo, jsOrNum]
  have hk5 : resultDistKey resD5 = 5 := by
    norm_num [resultDistKey, resD5, nsdDemo, jsOrNum]
  rw [sortResults, if_neg (by decide), if_pos (by decide), if_neg (by decide)]
  rw [List.insertionSort, List.insertionSort, List.insertionSort]
  rw [List.orderedInsert, List.orderedInsert, if_neg (by rw [hk0, hk5]; norm_num),
    List.orderedInsert]

/-- C4 (amended): with `sortBy` distance and ascending order the results
are a permutation of the input sorted by the key `nearestStore.distance ||
999`; a missing distance and a distance of exactly 0 both become 999 and
sort after every result with a positive distance below 999, while a result
with a nonzero present distance sorts by its actual distance. -/
theorem distance_sort_uses_falsy_999_key :
    ∀ rs : List SearchResult,
      (sortResults "distance".toList "asc".toList rs).Perm rs ∧
      List.Sorted (fun a b => resultDistKey a ≤ resultDistKey b)
        (sortResults "distance".toList "asc".toList rs) ∧
      (∀ r : SearchResult, r.nearestStore = none → resultDistKey r = 999) ∧
      (∀ (r : SearchResult) (d : NearestStoreDetail),
        r.nearestStore = some d → d.distance = 0 → resultDistKey r = 999) ∧
      (∀ (r : SearchResult) (d : NearestStoreDetail),
        r.nearestStore = some d → d.distance ≠ 0 → resultDistKey r = d.distance) := by
  intro rs
  have hbr : sortResults "distance".toList "asc".toList rs =
      rs.insertionSort fun a b => resultDistKey a ≤ resultDistKey b := by
    rw [sortResults, if_neg (by decide), if_pos (by decide), if_neg (by decide)]
  refine ⟨?_, ?_, ?_, ?_, ?_⟩
  · rw [hbr]
    exact List.perm_insertionSort _ _
  · rw [hbr]
    exact List.sorted_insertionSort _ _
  · intro r h
    simp [resultDistKey, h, jsOrNum]
  · intro r d h h0
    simp [resultDistKey, h, jsOrNum, h0]
  · intro r d h h0
    simp [resultDistKey, h, jsOrNum, h0]

/-- Witness for C4 at the two concrete results. -/
theorem distance_sort_uses_falsy_999_key_witness :
    resultDistKey resD5 = 5 ∧ resultDistKey resD0 = 999 :=
  ⟨(distance_sort_uses_falsy_999_key []).2.2.2.2 resD5 (nsdDemo 5) rfl
      (by norm_num [nsdDemo]),
   (distance_sort_uses_falsy_999_key []).2.2.2.1 resD0 (nsdDemo 0) rfl rfl⟩

/-! ### C7: pagination completeness -/

lemma totalPages_succ (m k : ℕ) (hm : 1 ≤ m) (hk : 1 ≤ k) :
    totalPagesOf m k = totalPagesOf (m - k) k + 1 := by
  have h0 : 0 < k := hk
  have e1 : m + k - 1 = (m - 1) + k := by omega
  rw [totalPagesOf, e1, Nat.add_div_right _ h0]
  rcases le_or_lt m k with h | h
  · have e2 : m - k = 0 := by omega
    rw [e2, totalPagesOf]
    rw [Nat.div_eq_of_lt (by omega : m - 1 < k), Nat.div_eq_of_lt (by omega : 0 + k - 1 < k)]
  · have e2 : m - k + k - 1 = (m - k - 1) + k := by omega
    rw [totalPagesOf, e2, Nat.add_div_right _ h0]
    have e3 : m - 1 = (m - k - 1) + k := by omega
    rw [e3, Nat.add_div_right _ h0]

lemma join_chunks {α : Type} (k : ℕ) (hk : 1 ≤ k) :
    ∀ (n : ℕ) (l : List α), l.length ≤ n →
      ((List.range (totalPagesOf l.length k)).map fun i => (l.drop (i * k)).take k).flatten = l
  | 0, l, hl => by
    have he : l = [] := List.length_eq_zero.mp (Nat.le_zero.mp hl)
    subst he
    simp [totalPagesOf, Nat.div_eq_of_lt (by omega : 0 + k - 1 < k)]
  | n + 1, l, hl => by
    cases l with
    | nil => simp [totalPagesOf, Nat.div_eq_of_lt (by omega : 0 + k - 1 < k)]
    | cons x l' =>
      have htp : totalPagesOf (x :: l').length k =
          totalPagesOf ((x :: l').drop k).length k + 1 := by
        rw [List.length_drop]
        exact totalPages_succ _ k (by simp) hk
      rw [htp, List.range_succ_eq_map, List.map_cons, List.flatten_cons, List.map_map]
      have hcomp : ∀ i ∈ List.range (totalPagesOf ((x :: l').drop k).length k),
          ((fun i => ((x :: l').drop (i * k)).take k) ∘ Nat.succ) i =
            (((x :: l').drop k).drop (i * k)).take k := by
        intro i _
        show ((x :: l').drop (Nat.succ i * k)).take k = _
        rw [List.drop_drop]
        congr 2
        rw [Nat.succ_mul]
        omega
      rw [List.map_congr_left hcomp]
      rw [Nat.zero_mul, List.drop_zero]
      rw [join_chunks k hk n ((x :: l').drop k)
        (by rw [List.length_drop]; simp at hl ⊢; omega)]
      exact List.take_append_drop k (x :: l')

lemma sortedResults_page (st : SearchState) (req : SearchRequest) (k : ℕ) :
    sortedResults st { req with page := k } = sortedResults st req := by
  obtain ⟨q, lat, lng, radius, category, minPrice, maxPrice, sortBy, sortOrder, page, limit,
    retailer, inStockOnly⟩ := req
  rfl

lemma searchResponse_results (st : SearchState) (req : SearchRequest) :
    (searchResponse st req).results =
      ((sortedResults st req).drop ((req.page - 1) * req.limit)).take req.limit := rfl

lemma searchResponse_totalPages (st : SearchState) (req : SearchRequest) :
    (searchResponse st req).pagination.totalPages =
      totalPagesOf (sortedResults st req).length req.limit := rfl

lemma searchResponse_totalResults (st : SearchState) (req : SearchRequest) :
    (searchResponse st req).pagination.totalResults = (sortedResults st req).length := rfl

/-- C7: for a fixed request with a positive limit, concatenating the
result pages 1 through totalPages reproduces the full sorted result list
exactly, and totalResults is its length. -/
theorem pagination_complete (st : SearchState) (req : SearchRequest) (h : 1 ≤ req.limit) :
    ((List.range ((searchResponse st req).pagination.totalPages)).map fun i =>
        (searchResponse st { req with page := i + 1 }).results).flatten = sortedResults st req ∧
      (searchResponse st req).pagination.totalResults = (sortedResults st req).length := by
  constructor
  · rw [searchResponse_totalPages]
    have hpg : ∀ i ∈ List.range (totalPagesOf (sortedResults st req).length req.limit),
        (searchResponse st { req with page := i + 1 }).results =
          ((sortedResults st req).drop (i * req.limit)).take req.limit := by
      intro i _
      rw [searchResponse_results, sortedResults_page]
      simp
    rw [List.map_congr_left hpg]
    exact join_chunks req.limit h _ (sortedResults st req) le_rfl
  · rw [searchResponse_totalResults]

/-- Witness for C7 at the demo request with limit 20. -/
theorem pagination_complete_witness :
    ((List.range ((searchResponse stEmpty ReqC3).pagination.totalPages)).map fun i =>
        (searchResponse stEmpty { ReqC3 with page := i + 1 }).results).flatten =
      sortedResults stEmpty ReqC3 ∧
      (searchResponse stEmpty ReqC3).pagination.totalResults =
        (sortedResults stEmpty ReqC3).length :=
  pagination_complete stEmpty ReqC3 (by norm_num [ReqC3])

/-! ### C1: geo filtering -/

lemma toRadians_zero : toRadians 0 = 0 := by
  rw [toRadians]
  ring

lemma atan2_zero_one : atan2 0 1 = 0 := by
  rw [atan2, if_pos one_pos]
  norm_num

lemma round1_zero : round1 0 = 0 := by
  have h : ⌊(0 : ℝ) * 10 + 1 / 2⌋ = 0 := by
    rw [Int.floor_eq_zero_iff]
    constructor <;> norm_num
  rw [round1, h]
  norm_num

lemma haversineRaw_self (lat lng : ℝ) : haversineRaw lat lng lat lng = 0 := by
  simp [haversineRaw, sub_self, toRadians_zero, Real.sqrt_zero, Real.sqrt_one, atan2_zero_one]

lemma calculateDistance_self (lat lng : ℝ) : calculateDistance lat lng lat lng = 0 := by
  rw [calculateDistance, haversineRaw_self, round1_zero]

lemma cos_toRadians_pos {lat : ℝ} (h1 : -90 < lat) (h2 : lat < 90) :
    0 < Real.cos (toRadians lat) := by
  apply Real.cos_pos_of_mem_Ioo
  rw [Set.mem_Ioo]
  constructor
  · rw [toRadians]
    nlinarith [Real.pi_pos]
  · rw [toRadians]
    nlinarith [Real.pi_pos]

/-- C1 (amended): `findNearby` returns exactly the candidates that pass
the bounding-box test and whose one-decimal-rounded Haversine distance is
at most the radius, annotated with that rounded distance; the cutoff is on
the rounded distance, not the unrounded one, and candidates outside the
box are dropped without any distance test. -/
theorem findNearby_membership :
    ∀ (stores : List Store) (lat lng r : ℝ) (ns : NearbyStore),
      ns ∈ findNearbyStores stores lat lng r ↔
        ns.toStore ∈ stores ∧ inBox (getBoundingBox lat lng r) ns.toStore ∧
          ns.distance = calculateDistance lat lng ns.toStore.lat ns.toStore.lng ∧
          ns.distance ≤ r := by
  intro stores lat lng r ns
  simp only [findNearbyStores]
  rw [List.mem_insertionSort]
  obtain ⟨s0, d0⟩ := ns
  simp only [List.mem_filter, List.mem_map, decide_eq_true_eq]
  constructor
  · rintro ⟨⟨s, ⟨hs, hbox⟩, hmk⟩, hle⟩
    injection hmk with h1 h2
    subst h1
    subst h2
    exact ⟨hs, hbox, rfl, hle⟩
  · rintro ⟨hs, hbox, hd, hle⟩
    exact ⟨⟨s0, ⟨hs, hbox⟩, by rw [← hd]⟩, hle⟩

lemma haversineRaw_equator {d : ℝ} (h0 : 0 < d) (h1 : d < 180) :
    haversineRaw 0 0 0 d = 3959 * toRadians d := by
  have hπ := Real.pi_pos
  have hx0 : 0 < toRadians d / 2 := by
    rw [toRadians]
    positivity
  have hx2 : toRadians d / 2 < Real.pi / 2 := by
    rw [toRadians]
    nlinarith
  have hsin : 0 ≤ Real.sin (toRadians d / 2) :=
    le_of_lt (Real.sin_pos_of_pos_of_lt_pi hx0 (by linarith))
  have hcos : 0 < Real.cos (toRadians d / 2) :=
    Real.cos_pos_of_mem_Ioo ⟨by linarith, hx2⟩
  have hpyth : 1 - Real.sin (toRadians d / 2) ^ 2 = Real.cos (toRadians d / 2) ^ 2 := by
    linear_combination -Real.sin_sq_add_cos_sq (toRadians d / 2)
  calc haversineRaw 0 0 0 d
      = 3959 * (2 * atan2 (Real.sqrt (Real.sin (toRadians d / 2) ^ 2))
          (Real.sqrt (1 - Real.sin (toRadians d / 2) ^ 2))) := by
        simp [haversineRaw, toRadians_zero, Real.cos_zero]
    _ = 3959 * (2 * atan2 (Real.sin (toRadians d / 2)) (Real.cos (toRadians d / 2))) := by
        rw [Real.sqrt_sq hsin, hpyth, Real.sqrt_sq (le_of_lt hcos)]
    _ = 3959 * (2 * (toRadians d / 2)) := by
        rw [atan2, if_pos hcos, ← Real.tan_eq_sin_div_cos,
          Real.arctan_tan (by linarith) hx2]
    _ = 3959 * toRadians d := by ring



/-- Counterexample for C1: with radius 6.905 the store at true Haversine
distance about 6.9097 (greater than the radius) is returned anyway,
because its rounded distance 6.9 passes the cutoff. -/
theorem findNearby_true_distance_counterexample :
    findNearbyStores [sC1] 0 0 (1381 / 200) = [⟨sC1, 69 / 10⟩] ∧
      1381 / 200 < haversineRaw 0 0 sC1.lat sC1.lng := by
  have hπl : 3.141592 < Real.pi := Real.pi_gt_d6
  have hπu : Real.pi < 3.141593 := Real.pi_lt_d6
  have hrawval : haversineRaw 0 0 0 (1 / 10) = 3959 * ((1 / 10) * (Real.pi / 180)) := by
    rw [haversineRaw_equator (by norm_num) (by norm_num), toRadians]
  have hd : calculateDistance 0 0 0 (1 / 10) = 69 / 10 := by
    rw [calculateDistance, hrawval, round1]
    have hfl : ⌊3959 * (1 / 10 * (Real.pi / 180)) * 10 + 1 / 2⌋ = (69 : ℤ) := by
      rw [Int.floor_eq_iff]
      constructor
      · push_cast
        nlinarith
      · push_cast
        nlinarith
    rw [hfl]
    norm_num
  have hbox : inBox (getBoundingBox 0 0 (1381 / 200)) sC1 := by
    rw [inBox, getBoundingBox]
    norm_num [sC1, toRadians_zero, Real.cos_zero]
  constructor
  · have hd' : calculateDistance 0 0 sC1.lat sC1.lng = 69 / 10 := hd
    simp only [findNearbyStores]
    rw [List.filter_cons, List.filter_nil, if_pos (decide_eq_true hbox)]
    rw [List.map_cons, List.map_nil, hd']
    rw [List.filter_cons, List.filter_nil,
      if_pos (decide_eq_true (show ((⟨sC1, 69 / 10⟩ : NearbyStore)).distance ≤ 1381 / 200 by
        norm_num))]
    rw [List.insertionSort, List.insertionSort, List.orderedInsert]
  · have he : haversineRaw 0 0 sC1.lat sC1.lng = 3959 * ((1 / 10) * (Real.pi / 180)) := hrawval
    rw [he]
    nlinarith

/-! ### Dissecting the per-product aggregation -/

lemma sortResults_perm (sb so : List Char) (rs : List SearchResult) :
    (sortResults sb so rs).Perm rs := by
  rw [sortResults]
  split_ifs <;> exact List.perm_insertionSort _ _

lemma insertionSort_ne_nil {α : Type} (r : α → α → Prop) [DecidableRel r] {l : List α}
    (h : l ≠ []) : l.insertionSort r ≠ [] := by
  intro he
  apply h
  have := List.length_insertionSort r l
  rw [he] at this
  exact List.length_eq_zero.mp this.symm



/-- What `aggregateProduct` yields when it yields a result: the store
count is the length of the surviving record list, and the best price is
the price of a surviving record that is minimal among them. -/
lemma aggregateProduct_some_spec (st : SearchState) (req : SearchRequest)
    (sp : ScoredProduct) (r : SearchResult) (h : aggregateProduct st req sp = some r) :
    r.storeCount = ((productInventory st req sp.product).filter (priceOk req)).length ∧
      ∃ inv ∈ (productInventory st req sp.product).filter (priceOk req),
        r.bestPrice = inv.price ∧
          ∀ inv2 ∈ (productInventory st req sp.product).filter (priceOk req),
            inv.price ≤ inv2.price := by
  simp only [aggregateProduct] at h
  cases hb1 : (productInventory st req sp.product).isEmpty with
  | true => rw [hb1] at h; simp at h
  | false =>
    rw [hb1, if_neg Bool.false_ne_true] at h
    cases hb2 : ((productInventory st req sp.product).filter (priceOk req)).isEmpty with
    | true => rw [hb2] at h; simp at h
    | false =>
      rw [hb2, if_neg Bool.false_ne_true] at h
      have hne : (productInventory st req sp.product).filter (priceOk req) ≠ [] := by
        intro he
        rw [he] at hb2
        simp at hb2
      cases hs1 : ((productInventory st req sp.product).filter (priceOk req)).insertionSort
          (fun a b => a.price ≤ b.price) with
      | nil => exact absurd hs1 (insertionSort_ne_nil _ hne)
      | cons cheapest rest =>
        cases hs2 : ((productInventory st req sp.product).filter (priceOk req)).insertionSort
            (fun a b => invDistKey (nearbyStores st req) a ≤ invDistKey (nearbyStores st req) b)
          with
        | nil => exact absurd hs2 (insertionSort_ne_nil _ hne)
        | cons nInv rest2 =>
          rw [hs1, hs2] at h
          injection h with h
          subst h
          refine ⟨rfl, cheapest, ?_, rfl, ?_⟩
          · have hmem : cheapest ∈
                ((productInventory st req sp.product).filter (priceOk req)).insertionSort
                  (fun a b => a.price ≤ b.price) := by
              rw [hs1]
              exact List.mem_cons_self _ _
            exact (List.mem_insertionSort _).mp hmem
          · intro inv2 h2
            have hsorted := List.sorted_insertionSort (fun (a b : InventoryRecord) =>
              a.price ≤ b.price) ((productInventory st req sp.product).filter (priceOk req))
            rw [hs1] at hsorted
            have h2s : inv2 ∈ cheapest :: rest := by
              rw [← hs1]
              exact (List.mem_insertionSort _).mpr h2
            rcases List.mem_cons.mp h2s with h3 | h3
            · rw [h3]
            · exact (List.sorted_cons.mp hsorted).1 inv2 h3

/-- Function `aggregateProduct` yields a result exactly when some nearby record of
the product passes the price bounds. -/
lemma aggregateProduct_isSome_iff (st : SearchState) (req : SearchRequest)
    (sp : ScoredProduct) :
    (aggregateProduct st req sp).isSome = true ↔
      ∃ inv ∈ productInventory st req sp.product, priceOk req inv = true := by
  simp only [aggregateProduct]
  cases hb1 : (productInventory st req sp.product).isEmpty with
  | true =>
    have he : productInventory st req sp.product = [] := List.isEmpty_iff.mp hb1
    simp [he]
  | false =>
    rw [if_neg Bool.false_ne_true]
    cases hb2 : ((productInventory st req sp.product).filter (priceOk req)).isEmpty with
    | true =>
      have he : (productInventory st req sp.product).filter (priceOk req) = [] :=
        List.isEmpty_iff.mp hb2
      rw [if_pos rfl]
      simp only [Option.isSome_none, Bool.false_eq_true, false_iff]
      rintro ⟨inv, h1, h2⟩
      have := List.filter_eq_nil_iff.mp he inv h1
      exact this h2
    | false =>
      rw [if_neg Bool.false_ne_true]
      have hne : (productInventory st req sp.product).filter (priceOk req) ≠ [] := by
        intro he
        rw [he] at hb2
        simp at hb2
      cases hs1 : ((productInventory st req sp.product).filter (priceOk req)).insertionSort
          (fun a b => a.price ≤ b.price) with
      | nil => exact absurd hs1 (insertionSort_ne_nil _ hne)
      | cons cheapest rest =>
        cases hs2 : ((productInventory st req sp.product).filter (priceOk req)).insertionSort
            (fun a b => invDistKey (nearbyStores st req) a ≤ invDistKey (nearbyStores st req) b)
          with
        | nil => exact absurd hs2 (insertionSort_ne_nil _ hne)
        | cons nInv rest2 =>
          simp only [Option.isSome_some, true_iff]
          obtain ⟨inv, hi⟩ := List.exists_mem_of_ne_nil _ hne
          rw [List.mem_filter] at hi
          exact ⟨inv, hi.1, hi.2⟩

/-- Every result in the response comes from `aggregateProduct` on a
product that survived the text, category and retailer narrowing. -/
lemma results_sub (st : SearchState) (req : SearchRequest) (r : SearchResult)
    (h : r ∈ (searchResponse st req).results) :
    ∃ sp ∈ matchingProducts st req, aggregateProduct st req sp = some r := by
  rw [searchResponse_results] at h
  have h1 : r ∈ sortedResults st req :=
    List.mem_of_mem_drop (List.mem_of_mem_take h)
  have h2 : r ∈ fullResults st req := (sortResults_perm _ _ _).mem_iff.mp h1
  rw [fullResults, List.mem_filterMap] at h2
  exact h2

/-! ### C5: storeCount counts records, not distinct stores -/

/-- C5 (amended): in every emitted result `storeCount` is the number of
surviving (nearby, stock- and price-filtered) inventory records of the
product, which can exceed the number of distinct carrying stores when one
store holds several records for the product. -/
theorem storeCount_counts_records (st : SearchState) (req : SearchRequest)
    (sp : ScoredProduct) (r : SearchResult) (h : aggregateProduct st req sp = some r) :
    r.storeCount = ((productInventory st req sp.product).filter (priceOk req)).length :=
  (aggregateProduct_some_spec st req sp r h).1

/-! ### C6: price bounds -/

/-- C6: whenever `minPrice` or `maxPrice` is supplied, every returned
result has `bestPrice` within the bounds, and a product yields a result
exactly when at least one of its nearby surviving records satisfies the
bounds. -/
theorem price_filter_bounds :
    (∀ (st : SearchState) (req : SearchRequest) (lo : ℝ) (r : SearchResult),
      req.minPrice = some lo → r ∈ (searchResponse st req).results → lo ≤ r.bestPrice) ∧
      (∀ (st : SearchState) (req : SearchRequest) (hi : ℝ) (r : SearchResult),
        req.maxPrice = some hi → r ∈ (searchResponse st req).results → r.bestPrice ≤ hi) ∧
      (∀ (st : SearchState) (req : SearchRequest) (sp : ScoredProduct),
        (aggregateProduct st req sp).isSome = true ↔
          ∃ inv ∈ productInventory st req sp.product, priceOk req inv = true) ∧
      (∀ (st : SearchState) (req : SearchRequest) (sp : ScoredProduct) (r : SearchResult),
        aggregateProduct st req sp = some r →
        ∃ inv ∈ (productInventory st req sp.product).filter (priceOk req),
          r.bestPrice = inv.price ∧
            ∀ inv2 ∈ (productInventory st req sp.product).filter (priceOk req),
              inv.price ≤ inv2.price) := by
  refine ⟨?_, ?_, aggregateProduct_isSome_iff,
    fun st req sp r h => (aggregateProduct_some_spec st req sp r h).2⟩
  · intro st req lo r hmin hr
    obtain ⟨sp, _, hagg⟩ := results_sub st req r hr
    obtain ⟨_, inv, hinv, hbp, _⟩ := aggregateProduct_some_spec st req sp r hagg
    rw [List.mem_filter] at hinv
    have hok := hinv.2
    rw [priceOk, hmin, Bool.and_eq_true] at hok
    have h1 : ¬inv.price < lo := by simpa using hok.1
    rw [hbp]
    exact le_of_not_lt h1
  · intro st req hi r hmax hr
    obtain ⟨sp, _, hagg⟩ := results_sub st req r hr
    obtain ⟨_, inv, hinv, hbp, _⟩ := aggregateProduct_some_spec st req sp r hagg
    rw [List.mem_filter] at hinv
    have hok := hinv.2
    rw [priceOk, hmax, Bool.and_eq_true] at hok
    have h1 : ¬hi < inv.price := by simpa using hok.2
    rw [hbp]
    exact le_of_not_lt h1

/-! ### Concrete evaluation of the pipeline on the demo states -/

lemma insertionSort_singleton {α : Type} (r : α → α → Prop) [DecidableRel r] (a : α) :
    List.insertionSort r [a] = [a] := by
  simp only [List.insertionSort, List.orderedInsert]

lemma findNearbyStores_single_self (s : Store) (r : ℝ) (hr : 0 < r)
    (hcos : 0 < Real.cos (toRadians s.lat)) :
    findNearbyStores [s] s.lat s.lng r = [⟨s, 0⟩] := by
  have hbox : inBox (getBoundingBox s.lat s.lng r) s := by
    simp only [inBox, getBoundingBox]
    have h69 : (0 : ℝ) < r / 69 := by positivity
    have hlngd : (0 : ℝ) < r / (69 * Real.cos (toRadians s.lat)) := by positivity
    exact ⟨by linarith, by linarith, by linarith, by linarith⟩
  simp only [findNearbyStores]
  rw [List.filter_cons, List.filter_nil, if_pos (decide_eq_true hbox)]
  rw [List.map_cons, List.map_nil, calculateDistance_self]
  rw [List.filter_cons, List.filter_nil,
    if_pos (decide_eq_true (show ((⟨s, (0 : ℝ)⟩ : NearbyStore)).distance ≤ r from le_of_lt hr))]
  exact insertionSort_singleton _ _

lemma cos_default : 0 < Real.cos (toRadians (40.6892 : ℝ)) :=
  cos_toRadians_pos (by norm_num) (by norm_num)

lemma nearby_demo (st : SearchState) (req : SearchRequest) (hS : st.stores = [S1])
    (h1 : userLat req = 40.6892) (h2 : userLng req = -73.9857) (h3 : maxRadius req = 10) :
    nearbyStores st req = [⟨S1, 0⟩] := by
  rw [nearbyStores, hS, h1, h2, h3]
  exact findNearbyStores_single_self S1 10 (by norm_num) cos_default

lemma userLat_ReqC3 : userLat ReqC3 = 40.6892 := by
  norm_num [userLat, ReqC3, jsOrNum]

lemma userLng_ReqC3 : userLng ReqC3 = -73.9857 := by
  norm_num [userLng, ReqC3, jsOrNum]

lemma maxRadius_ReqC3 : maxRadius ReqC3 = 10 := by
  norm_num [maxRadius, ReqC3, min_def]

lemma demo_match (st : SearchState) (req : SearchRequest) (hP : st.PRODUCTS = [P1])
    (hq : req.q = "drill".toList) (hcat : req.category = none) (hret : req.retailer = none) :
    matchingProducts st req = [⟨P1, 5⟩] := by
  have hterms : searchTerms req = ["drill".toList] := by
    rw [searchTerms, hq]
    decide
  rw [matchingProducts, hcat, hret, hterms, hP]
  show textMatch ["drill".toList] [P1] = [⟨P1, 5⟩]
  rw [textMatch, if_neg (by decide), List.map_cons, List.map_nil]
  have hscore : scoreProduct ["drill".toList] P1 = 5 := by decide
  rw [hscore, List.filter_cons, List.filter_nil, if_pos (decide_eq_true (by decide))]



lemma demo_ids (st : SearchState) (req : SearchRequest) (hS : st.stores = [S1])
    (h1 : userLat req = 40.6892) (h2 : userLng req = -73.9857) (h3 : maxRadius req = 10) :
    nearbyStoreIds st req = [S1.storeId] := by
  rw [nearbyStoreIds, nearby_demo st req hS h1 h2 h3, List.map_cons, List.map_nil]

lemma demo_pinv (st : SearchState) (req : SearchRequest) (hI : st.inventory = [I1])
    (hids : nearbyStoreIds st req = [S1.storeId]) :
    productInventory st req P1 = [I1] := by
  rw [productInventory, hI, List.filter_cons, List.filter_nil]
  have hcond : I1.productSku = P1.sku ∧ I1.storeId ∈ nearbyStoreIds st req ∧
      (req.inStockOnly = false ∨ I1.inStock = true) := by
    refine ⟨by decide, ?_, Or.inr rfl⟩
    rw [hids]
    exact List.mem_singleton.mpr (by decide)
  rw [if_pos (decide_eq_true hcond)]

lemma lookup_demo (id : List Char) (hid : id = "hd-bk-001".toList) :
    lookupStore [⟨S1, (0 : ℝ)⟩] id = some ⟨S1, 0⟩ := by
  rw [lookupStore, List.reverse_singleton]
  exact List.find?_cons_of_pos _ (by show decide (S1.storeId = id) = true; rw [hid]; decide)

lemma demo_agg (st : SearchState) (req : SearchRequest) (hS : st.stores = [S1])
    (hI : st.inventory = [I1])
    (h1 : userLat req = 40.6892) (h2 : userLng req = -73.9857) (h3 : maxRadius req = 10)
    (hpo : priceOk req I1 = true) :
    aggregateProduct st req ⟨P1, 5⟩ = some rDemo := by
  have hnd : nearbyStores st req = [⟨S1, 0⟩] := nearby_demo st req hS h1 h2 h3
  have hpinv : productInventory st req P1 = [I1] :=
    demo_pinv st req hI (demo_ids st req hS h1 h2 h3)
  simp only [aggregateProduct]
  rw [hpinv]
  rw [show ([I1].isEmpty) = false from rfl, if_neg Bool.false_ne_true]
  rw [List.filter_cons, List.filter_nil, if_pos hpo]
  rw [show ([I1].isEmpty) = false from rfl, if_neg Bool.false_ne_true]
  rw [insertionSort_singleton, insertionSort_singleton, hnd]
  dsimp only
  rw [lookup_demo I1.storeId rfl]
  rfl

lemma demo_sorted (st : SearchState) (req : SearchRequest)
    (hP : st.PRODUCTS = [P1]) (hS : st.stores = [S1]) (hI : st.inventory = [I1])
    (hq : req.q = "drill".toList) (hcat : req.category = none) (hret : req.retailer = none)
    (h1 : userLat req = 40.6892) (h2 : userLng req = -73.9857) (h3 : maxRadius req = 10)
    (hpo : priceOk req I1 = true) (hsb : req.sortBy = "relevance".toList) :
    sortedResults st req = [rDemo] := by
  have hfull : fullResults st req = [rDemo] := by
    rw [fullResults, demo_match st req hP hq hcat hret, List.filterMap_cons,
      demo_agg st req hS hI h1 h2 h3 hpo]
    rfl
  rw [sortedResults, hfull, sortResults, hsb]
  rw [if_neg (by decide), if_neg (by decide), if_neg (by decide)]
  exact insertionSort_singleton _ _

/-! ### C3: the mid-ocean scenario -/

/-- Counterexample for C3: a search for drill at lat 0, lng 0 with radius
10 is redirected to the default Brooklyn location, so on a state holding a
drill product stocked at a store at that default location the response is
non-empty, with totalResults 1 and totalPages 1 — not the empty response
the claim predicts (the repository test suite likewise expects drill
results at the default location). -/
theorem midocean_search_counterexample :
    (searchResponse StDemo ReqC3).results = [rDemo] ∧
      (searchResponse StDemo ReqC3).pagination.totalResults = 1 ∧
      (searchResponse StDemo ReqC3).pagination.totalPages = 1 := by
  have hs : sortedResults StDemo ReqC3 = [rDemo] :=
    demo_sorted StDemo ReqC3 rfl rfl rfl rfl rfl rfl userLat_ReqC3 userLng_ReqC3
      maxRadius_ReqC3 rfl rfl
  refine ⟨?_, ?_, ?_⟩
  · rw [searchResponse_results, hs]
    rfl
  · rw [searchResponse_totalResults, hs]
    rfl
  · rw [searchResponse_totalPages, hs]
    rfl

/-- C3 (amended): a search at coordinates 0,0 is redirected to the default
location and returns whatever matches there; for every state and request
whose effective location and radius leave no store nearby, the search
returns an empty result list with totalResults 0 and totalPages 0 and no
error. -/
theorem empty_region_returns_empty (st : SearchState) (req : SearchRequest)
    (h : nearbyStores st req = []) :
    (searchResponse st req).results = [] ∧
      (searchResponse st req).pagination.totalResults = 0 ∧
      (searchResponse st req).pagination.totalPages = 0 := by
  have hids : nearbyStoreIds st req = [] := by
    rw [nearbyStoreIds, h]
    rfl
  have hpinv : ∀ p : Product, productInventory st req p = [] := by
    intro p
    rw [productInventory]
    apply List.filter_eq_nil_iff.mpr
    intro inv _
    simp only [decide_eq_true_eq]
    rintro ⟨_, h2, _⟩
    rw [hids] at h2
    exact absurd h2 (List.not_mem_nil _)
  have hagg : ∀ sp : ScoredProduct, aggregateProduct st req sp = none := by
    intro sp
    simp only [aggregateProduct, hpinv sp.product]
    rfl
  have hfull : fullResults st req = [] := by
    rw [fullResults]
    apply List.filterMap_eq_nil_iff.mpr
    intro sp _
    exact hagg sp
  have hsorted : sortedResults st req = [] := by
    rw [sortedResults, hfull, sortResults]
    split_ifs <;> rfl
  refine ⟨?_, ?_, ?_⟩
  · rw [searchResponse_results, hsorted]
    simp
  · rw [searchResponse_totalResults, hsorted]
    rfl
  · rw [searchResponse_totalPages, hsorted]
    show totalPagesOf 0 req.limit = 0
    rw [totalPagesOf]
    rcases Nat.eq_zero_or_pos req.limit with h0 | h0
    · rw [h0]
    · exact Nat.div_eq_of_lt (by omega)

/-- Witness for C3 on a state with a drill product and inventory but no
stores at all. -/
theorem empty_region_returns_empty_witness :
    (searchResponse StDemoNoStores ReqC3).results = [] ∧
      (searchResponse StDemoNoStores ReqC3).pagination.totalResults = 0 ∧
      (searchResponse StDemoNoStores ReqC3).pagination.totalPages = 0 :=
  empty_region_returns_empty StDemoNoStores ReqC3 (by
    rw [nearbyStores]
    show findNearbyStores [] _ _ _ = []
    simp only [findNearbyStores]
    rw [List.filter_nil, List.map_nil, List.filter_nil]
    rfl)

/-! ### C5 concrete data: two records at one store -/

lemma priceOk_ReqC3 (inv : InventoryRecord) : priceOk ReqC3 inv = true := rfl

lemma invDistKey_demo (inv : InventoryRecord) (hid : inv.storeId = "hd-bk-001".toList) :
    invDistKey [⟨S1, (0 : ℝ)⟩] inv = 999 := by
  rw [invDistKey, lookup_demo inv.storeId hid]
  show jsOrNum (some (0 : ℝ)) 999 = 999
  simp [jsOrNum]

lemma demo2_pinv : productInventory StDemo2 ReqC3 P1 = [I1, I2] := by
  have hids : nearbyStoreIds StDemo2 ReqC3 = [S1.storeId] :=
    demo_ids StDemo2 ReqC3 rfl userLat_ReqC3 userLng_ReqC3 maxRadius_ReqC3
  rw [productInventory]
  show List.filter _ [I1, I2] = [I1, I2]
  rw [List.filter_cons, if_pos (decide_eq_true ⟨by decide, by
    rw [hids]; exact List.mem_singleton.mpr (by decide), Or.inr rfl⟩)]
  rw [List.filter_cons, if_pos (decide_eq_true ⟨by decide, by
    rw [hids]; exact List.mem_singleton.mpr (by decide), Or.inr rfl⟩)]
  rw [List.filter_nil]

lemma demo2_finv :
    (productInventory StDemo2 ReqC3 P1).filter (priceOk ReqC3) = [I1, I2] := by
  rw [demo2_pinv]
  rw [List.filter_cons, if_pos (priceOk_ReqC3 I1), List.filter_cons, if_pos (priceOk_ReqC3 I2),
    List.filter_nil]



lemma demo2_sorted : sortedResults StDemo2 ReqC3 = [rDemo2] := by
  have hnd : nearbyStores StDemo2 ReqC3 = [⟨S1, 0⟩] :=
    nearby_demo StDemo2 ReqC3 rfl userLat_ReqC3 userLng_ReqC3 maxRadius_ReqC3
  have hagg : aggregateProduct StDemo2 ReqC3 ⟨P1, 5⟩ = some rDemo2 := by
    simp only [aggregateProduct]
    rw [demo2_pinv]
    rw [show ([I1, I2].isEmpty) = false from rfl, if_neg Bool.false_ne_true]
    rw [List.filter_cons, if_pos (priceOk_ReqC3 I1), List.filter_cons,
      if_pos (priceOk_ReqC3 I2), List.filter_nil]
    rw [show ([I1, I2].isEmpty) = false from rfl, if_neg Bool.false_ne_true]
    rw [hnd]
    have hsort1 : List.insertionSort (fun (a b : InventoryRecord) => a.price ≤ b.price)
        [I1, I2] = [I1, I2] := by
      simp only [List.insertionSort, List.orderedInsert]
      rw [if_pos (show I1.price ≤ I2.price by norm_num [I1, I2])]
    have hsort2 : List.insertionSort (fun (a b : InventoryRecord) =>
        invDistKey [⟨S1, (0 : ℝ)⟩] a ≤ invDistKey [⟨S1, (0 : ℝ)⟩] b) [I1, I2] = [I1, I2] := by
      simp only [List.insertionSort, List.orderedInsert]
      rw [if_pos (show invDistKey [⟨S1, (0 : ℝ)⟩] I1 ≤ invDistKey [⟨S1, (0 : ℝ)⟩] I2 by
        rw [invDistKey_demo I1 rfl, invDistKey_demo I2 rfl])]
    rw [hsort1, hsort2]
    dsimp only
    rw [show List.take 5 [I1, I2] = [I1, I2] from rfl]
    rw [List.map_cons, List.map_cons, List.map_nil]
    rw [lookup_demo I1.storeId rfl, lookup_demo I2.storeId rfl]
    rfl
  have hfull : fullResults StDemo2 ReqC3 = [rDemo2] := by
    rw [fullResults, demo_match StDemo2 ReqC3 rfl rfl rfl rfl, List.filterMap_cons, hagg]
    rfl
  rw [sortedResults, hfull, sortResults]
  rw [if_neg (by decide), if_neg (by decide), if_neg (by decide)]
  exact insertionSort_singleton _ _

/-- Counterexample for C5: on the two-record demo state the emitted result
reports storeCount 2 although the surviving records come from a single
distinct store. -/
theorem storeCount_distinct_counterexample :
    (searchResponse StDemo2 ReqC3).results = [rDemo2] ∧ rDemo2.storeCount = 2 ∧
      (((productInventory StDemo2 ReqC3 P1).filter (priceOk ReqC3)).map fun inv =>
          inv.storeId) = ["hd-bk-001".toList, "hd-bk-001".toList] ∧
      ((((productInventory StDemo2 ReqC3 P1).filter (priceOk ReqC3)).map fun inv =>
          inv.storeId)).dedup.length = 1 := by
  refine ⟨?_, rfl, ?_, ?_⟩
  · rw [searchResponse_results, demo2_sorted]
    rfl
  · rw [demo2_finv]
    rfl
  · rw [demo2_finv]
    decide

/-- Witness for C5 (amended) on the single-record demo state. -/
theorem storeCount_counts_records_witness :
    rDemo.storeCount = ((productInventory StDemo ReqC3
      (⟨P1, 5⟩ : ScoredProduct).product).filter (priceOk ReqC3)).length :=
  storeCount_counts_records StDemo ReqC3 ⟨P1, 5⟩ rDemo
    (demo_agg StDemo ReqC3 rfl rfl userLat_ReqC3 userLng_ReqC3 maxRadius_ReqC3 rfl)

/-! ### C6 witness: the demo search with price bounds 1 and 100 -/

lemma userLat_ReqC6 : userLat ReqC6 = 40.6892 := by
  norm_num [userLat, ReqC6, jsOrNum]

lemma userLng_ReqC6 : userLng ReqC6 = -73.9857 := by
  norm_num [userLng, ReqC6, jsOrNum]

lemma maxRadius_ReqC6 : maxRadius ReqC6 = 10 := by
  norm_num [maxRadius, ReqC6, min_def]

lemma priceOk_ReqC6_I1 : priceOk ReqC6 I1 = true := by
  have h1 : (decide (¬(I1.price < 1))) = true := decide_eq_true (by norm_num [I1])
  have h2 : (decide (¬((100 : ℝ) < I1.price))) = true := decide_eq_true (by norm_num [I1])
  show ((decide (¬(I1.price < 1))) && (decide (¬((100 : ℝ) < I1.price)))) = true
  rw [h1, h2]
  rfl

lemma demo6_mem : rDemo ∈ (searchResponse StDemo ReqC6).results := by
  rw [searchResponse_results,
    demo_sorted StDemo ReqC6 rfl rfl rfl rfl rfl rfl userLat_ReqC6 userLng_ReqC6
      maxRadius_ReqC6 priceOk_ReqC6_I1 rfl]
  show rDemo ∈ [rDemo]
  exact List.mem_cons_self _ _

/-- Witness for C6 at the demo state with bounds 1 and 100. -/
theorem price_filter_bounds_witness :
    (1 : ℝ) ≤ rDemo.bestPrice ∧ rDemo.bestPrice ≤ 100 ∧
      (aggregateProduct StDemo ReqC6 ⟨P1, 5⟩).isSome = true ∧
      ∃ inv ∈ (productInventory StDemo ReqC6
          (⟨P1, 5⟩ : ScoredProduct).product).filter (priceOk ReqC6),
        rDemo.bestPrice = inv.price ∧
          ∀ inv2 ∈ (productInventory StDemo ReqC6
              (⟨P1, 5⟩ : ScoredProduct).product).filter (priceOk ReqC6),
            inv.price ≤ inv2.price :=
  ⟨price_filter_bounds.1 StDemo ReqC6 1 rDemo rfl demo6_mem,
   price_filter_bounds.2.1 StDemo ReqC6 100 rDemo rfl demo6_mem,
   (price_filter_bounds.2.2.1 StDemo ReqC6 ⟨P1, 5⟩).mpr
     ⟨I1, by
        rw [demo_pinv StDemo ReqC6 rfl
          (demo_ids StDemo ReqC6 rfl userLat_ReqC6 userLng_ReqC6 maxRadius_ReqC6)]
        exact List.mem_cons_self _ _,
      priceOk_ReqC6_I1⟩,
   price_filter_bounds.2.2.2 StDemo ReqC6 ⟨P1, 5⟩ rDemo
     (demo_agg StDemo ReqC6 rfl rfl userLat_ReqC6 userLng_ReqC6 maxRadius_ReqC6
       priceOk_ReqC6_I1)⟩

end RetailRadar
